import Mathlib

/-!
# Verification of the `convert_axios_http` HTTP codec

Shallow embedding of the `HttpConverter` class (src: the converter module,
`parseHttpRequest`, `parseHttpResponse`, `parseMultipartData`,
`buildMultipartBody`, `axiosRequestToHttpBytes`, `axiosResponseToHttpBytes`,
`httpBytesToAxiosRequest`, `httpBytesToAxiosResponse`).

Modelling conventions:

* JavaScript strings are modelled as `List Char`.
* Every byte buffer (`ArrayBuffer`) handled by the converter is either the
  raw input or is produced by `TextEncoder().encode(text)` and consumed by
  `TextDecoder().decode(bytes)`.  Since `decode ∘ encode = id` on strings,
  buffers are modelled by the text they encode (a `List Char`); a buffer's
  `byteLength` is the UTF-8 byte length `utf8Len` of that text.
* JavaScript platform primitives (`String.prototype.split`, `trim`,
  `toLowerCase`, `indexOf`, regular-expression search, `JSON.parse`,
  `JSON.stringify`) are embedded as executable Lean functions that follow
  the platform semantics on the inputs the converter feeds them.
* JavaScript objects used as string maps keep insertion order and overwrite
  in place on key collision (`objInsert`); `obj[key]` lookup is `objGet`.
* Thrown `ConversionError`s are modelled with `Except ConvError`.
-/

/-- Characters of a Lean string literal, used to write JS strings tersely. -/
def toL (s : String) : List Char := s.data

/-- The JS whitespace class used by `String.prototype.trim` and by `\s`
in regular expressions (restricted to the ASCII part, which is all the
converter ever meets). -/
def isJsWs (c : Char) : Bool :=
  c = ' ' || c = '\t' || c = '\n' || c = '\r' || c = '\x0b' || c = '\x0c'

/-- JS `String.prototype.trim`. -/
def trimL (s : List Char) : List Char :=
  ((s.dropWhile isJsWs).reverse.dropWhile isJsWs).reverse

/-- ASCII lowercasing of one character (`String.prototype.toLowerCase`). -/
def charLower (c : Char) : Char :=
  if 'A' ≤ c ∧ c ≤ 'Z' then Char.ofNat (c.toNat + 32) else c

/-- ASCII uppercasing of one character (`String.prototype.toUpperCase`). -/
def charUpper (c : Char) : Char :=
  if 'a' ≤ c ∧ c ≤ 'z' then Char.ofNat (c.toNat - 32) else c

def toLowerL (s : List Char) : List Char := s.map charLower

def toUpperL (s : List Char) : List Char := s.map charUpper

/-- UTF-8 length of one character, as produced by `TextEncoder`. -/
def charUtf8Len (c : Char) : Nat :=
  if c.toNat < 0x80 then 1
  else if c.toNat < 0x800 then 2
  else if c.toNat < 0x10000 then 3
  else 4

/-- `byteLength` of the buffer `TextEncoder().encode(s)`. -/
def utf8Len (s : List Char) : Nat := (s.map charUtf8Len).sum

/-- If `pre` is a prefix of `s`, strip it and return the rest. -/
def dropPre : List Char → List Char → Option (List Char)
  | [], s => some s
  | _ :: _, [] => none
  | p :: ps, c :: cs => if p = c then dropPre ps cs else none

/-- Whether `pre` is a prefix of `s` (JS `String.prototype.startsWith`). -/
def isPre (pre s : List Char) : Bool := (dropPre pre s).isSome

/-- JS `String.prototype.includes` (substring search). -/
def containsSeq (needle : List Char) : List Char → Bool
  | [] => needle.isEmpty
  | c :: rest => isPre needle (c :: rest) || containsSeq needle rest

/-- Fueled worker for `splitSeq`; the fuel dominates the input length, so it
never runs out when called through `splitSeq`. -/
def splitSeqF (sep : List Char) : Nat → List Char → List (List Char)
  | _, [] => [[]]
  | 0, s => [s]
  | fuel + 1, c :: rest =>
    match dropPre sep (c :: rest) with
    | some rest2 => [] :: splitSeqF sep fuel rest2
    | none =>
      match splitSeqF sep fuel rest with
      | [] => [[c]]
      | h :: t => (c :: h) :: t

/-- JS `String.prototype.split` with a non-empty literal separator. -/
def splitSeq (sep s : List Char) : List (List Char) := splitSeqF sep s.length s

/-- JS `Array.prototype.join` with a literal separator. -/
def joinSeq (sep : List Char) : List (List Char) → List Char
  | [] => []
  | [x] => x
  | x :: y :: rest => x ++ sep ++ joinSeq sep (y :: rest)

/-- Decimal digits of a natural number (fueled; fuel dominates the value). -/
def natToCharsF : Nat → Nat → List Char
  | 0, _ => []
  | fuel + 1, n =>
    if n < 10 then [Char.ofNat (48 + n)]
    else natToCharsF fuel (n / 10) ++ [Char.ofNat (48 + n % 10)]

/-- JS number-to-string conversion for a non-negative integer. -/
def natToChars (n : Nat) : List Char := natToCharsF (n + 1) n

/-- JS number-to-string conversion for an integer. -/
def intToChars (i : Int) : List Char :=
  if i < 0 then '-' :: natToChars (-i).toNat else natToChars i.toNat

/-- Numeric value of a list of decimal digits (`parseInt(s, 10)` on an
all-digit string). -/
def digitsToNat (s : List Char) : Nat :=
  s.foldl (fun acc c => acc * 10 + (c.toNat - 48)) 0

/-- Split a line at its first colon: `some (before, after)` when a colon
exists (JS `line.indexOf(':')` plus the two `substring` calls). -/
def breakColon : List Char → Option (List Char × List Char)
  | [] => none
  | ':' :: rest => some ([], rest)
  | c :: rest => (breakColon rest).map (fun p => (c :: p.1, p.2))

/-- JS object assignment `m[k] = v`: overwrite in place, else append. -/
def objInsert (m : List (List Char × List Char)) (k v : List Char) :
    List (List Char × List Char) :=
  if m.any (fun p => p.1 = k) then
    m.map (fun p => if p.1 = k then (p.1, v) else p)
  else m ++ [(k, v)]

/-- JS object lookup `m[k]` (keys are unique by construction). -/
def objGet (m : List (List Char × List Char)) (k : List Char) :
    Option (List Char) :=
  (m.find? (fun p => p.1 = k)).map (fun p => p.2)

/-! ## Regular-expression models

The converter uses three regexes: the status-line pattern
`HTTP\/\d\.\d\s+(\d+)\s+(.+)` (an unanchored search via `String.match`),
the boundary extractor `boundary=([^;]+)` and the content-disposition
extractors `name="([^"]+)"` / `filename="([^"]+)"`.  Each is embedded as a
dedicated search function with the backtracking behaviour of the JS engine
on its pattern. -/

/-- Match `HTTP\/\d\.\d` at the head of `s`, returning the remainder. -/
def statusHead : List Char → Option (List Char)
  | 'H' :: 'T' :: 'T' :: 'P' :: '/' :: d1 :: '.' :: d2 :: rest =>
    if d1.isDigit && d2.isDigit then some rest else none
  | _ => none

/-- Match the tail pattern `\s+(\d+)\s+(.+)` at the head of `s`, returning
the two captures.  `\s+` and `\d+` are forced maximal (their follow classes
are disjoint); for the final `\s+` the engine backtracks from the maximal
whitespace run until `.+` (one or more non-newline characters) can start. -/
def statusTail (s : List Char) : Option (List Char × List Char) :=
  let ws1 := s.takeWhile isJsWs
  let r1 := s.dropWhile isJsWs
  if ws1.isEmpty then none
  else
    let ds := r1.takeWhile Char.isDigit
    let r2 := r1.dropWhile Char.isDigit
    if ds.isEmpty then none
    else
      let ws2 := r2.takeWhile isJsWs
      let r3 := r2.dropWhile isJsWs
      if ws2.isEmpty then none
      else
        match r3 with
        | c :: _ =>
          -- after a maximal whitespace run a non-newline character follows
          -- (`\r`/`\n` are whitespace), so `.+` matches greedily from here
          some (ds, (c :: r3.tail).takeWhile (fun x => x ≠ '\n' && x ≠ '\r'))
        | [] =>
          -- input ends in whitespace: backtrack `\s+` to the longest
          -- proper prefix after which a non-newline character follows
          match ((ws2.drop 1).reverse).dropWhile (fun x => x = '\n' || x = '\r') with
          | [] => none
          | _ :: _ =>
            let keep := (((ws2.drop 1).reverse).dropWhile
              (fun x => x = '\n' || x = '\r')).length
            some (ds, ((ws2.drop keep).takeWhile (fun x => x ≠ '\n' && x ≠ '\r')))

/-- Unanchored search for the status-line regex: captures `(code, reason)`. -/
def statusLineMatch : List Char → Option (List Char × List Char)
  | [] => none
  | c :: rest =>
    match statusHead (c :: rest) with
    | some tail =>
      match statusTail tail with
      | some caps => some caps
      | none => statusLineMatch rest
    | none => statusLineMatch rest

/-- Unanchored search for `boundary=([^;]+)`: the capture is the maximal
run of non-`;` characters after a `boundary=` occurrence; an occurrence
followed by `;` or end of input is skipped and the search continues. -/
def boundaryCapture : List Char → Option (List Char)
  | [] => none
  | c :: rest =>
    match dropPre (toL "boundary=") (c :: rest) with
    | some after =>
      let cap := after.takeWhile (fun x => x ≠ ';')
      if cap.isEmpty then boundaryCapture rest else some cap
    | none => boundaryCapture rest

/-- Unanchored search for `<marker>"([^"]+)"` (with `marker` ending in the
opening quote, e.g. `name="`): the capture is a maximal nonempty run of
non-quote characters that is followed by a closing quote; otherwise the
search continues one position further. -/
def quotedCapture (marker : List Char) : List Char → Option (List Char)
  | [] => none
  | c :: rest =>
    match dropPre marker (c :: rest) with
    | some after =>
      let cap := after.takeWhile (fun x => x ≠ '"')
      let r2 := after.dropWhile (fun x => x ≠ '"')
      if !cap.isEmpty && r2 ≠ [] then some cap
      else quotedCapture marker rest
    | none => quotedCapture marker rest

/-! ## JSON model (`JSON.parse` / `JSON.stringify`) -/

/-- JSON values as produced by `JSON.parse`.  Numbers keep their source
lexeme (their double value is irrelevant to the converter's behaviour). -/
inductive JsonVal where
  | jnull
  | jbool (b : Bool)
  | jnum (lex : List Char)
  | jstr (s : List Char)
  | jarr (elems : List JsonVal)
  | jobj (members : List (List Char × JsonVal))

/-- JSON whitespace accepted between tokens by `JSON.parse`. -/
def isJsonWs (c : Char) : Bool := c = ' ' || c = '\t' || c = '\n' || c = '\r'

def skipWs (s : List Char) : List Char := s.dropWhile isJsonWs

/-- Hexadecimal digit test for `\uXXXX` escapes. -/
def isHexDig (c : Char) : Bool :=
  c.isDigit || ('a' ≤ c && c ≤ 'f') || ('A' ≤ c && c ≤ 'F')

/-- Parse the body of a JSON string literal after the opening quote:
returns the decoded content and the input after the closing quote. -/
def parseJStr : List Char → Option (List Char × List Char)
  | [] => none
  | '"' :: r => some ([], r)
  | '\\' :: e :: r =>
    match e with
    | '"' => (parseJStr r).map (fun p => ('"' :: p.1, p.2))
    | '\\' => (parseJStr r).map (fun p => ('\\' :: p.1, p.2))
    | '/' => (parseJStr r).map (fun p => ('/' :: p.1, p.2))
    | 'b' => (parseJStr r).map (fun p => ('\x08' :: p.1, p.2))
    | 'f' => (parseJStr r).map (fun p => ('\x0c' :: p.1, p.2))
    | 'n' => (parseJStr r).map (fun p => ('\n' :: p.1, p.2))
    | 'r' => (parseJStr r).map (fun p => ('\r' :: p.1, p.2))
    | 't' => (parseJStr r).map (fun p => ('\t' :: p.1, p.2))
    | 'u' =>
      match r with
      | h1 :: h2 :: h3 :: h4 :: r2 =>
        if isHexDig h1 && isHexDig h2 && isHexDig h3 && isHexDig h4 then
          let n := ((h1.toNat % 16 + (if h1.isDigit then 0 else 9)) * 4096 +
                    (h2.toNat % 16 + (if h2.isDigit then 0 else 9)) * 256 +
                    (h3.toNat % 16 + (if h3.isDigit then 0 else 9)) * 16 +
                    (h4.toNat % 16 + (if h4.isDigit then 0 else 9)))
          -- lone surrogates become the replacement character in this model
          let ch := if 0xD800 ≤ n ∧ n < 0xE000 then '�' else Char.ofNat n
          (parseJStr r2).map (fun p => (ch :: p.1, p.2))
        else none
      | _ => none
    | _ => none
  | c :: r =>
    if c.toNat < 0x20 then none
    else (parseJStr r).map (fun p => (c :: p.1, p.2))

/-- Exponent part of a JSON number (after integer and fraction parts). -/
def parseJNumExp (lex : List Char) (r : List Char) : Option (JsonVal × List Char) :=
  match r with
  | c :: r2 =>
    if c = 'e' || c = 'E' then
      let sign : List Char × List Char :=
        match r2 with
        | '+' :: r3 => (['+'], r3)
        | '-' :: r3 => (['-'], r3)
        | _ => ([], r2)
      let ds := sign.2.takeWhile Char.isDigit
      let r4 := sign.2.dropWhile Char.isDigit
      if ds.isEmpty then none
      else some (.jnum (lex ++ c :: sign.1 ++ ds), r4)
    else some (.jnum lex, r)
  | [] => some (.jnum lex, [])

/-- Fraction part of a JSON number (after the integer part). -/
def parseJNumFrac (lex : List Char) (r : List Char) : Option (JsonVal × List Char) :=
  match r with
  | '.' :: r2 =>
    let ds := r2.takeWhile Char.isDigit
    let r3 := r2.dropWhile Char.isDigit
    if ds.isEmpty then none else parseJNumExp (lex ++ '.' :: ds) r3
  | _ => parseJNumExp lex r

/-- A JSON number literal: `-? (0 | [1-9][0-9]*) frac? exp?`. -/
def parseJNum (s : List Char) : Option (JsonVal × List Char) :=
  let negAndRest : List Char × List Char :=
    match s with
    | '-' :: r => (['-'], r)
    | _ => ([], s)
  match negAndRest.2 with
  | '0' :: r => parseJNumFrac (negAndRest.1 ++ ['0']) r
  | c :: r =>
    if c.isDigit then
      let ds := (c :: r).takeWhile Char.isDigit
      let r2 := (c :: r).dropWhile Char.isDigit
      parseJNumFrac (negAndRest.1 ++ ds) r2
    else none
  | [] => none

def openBrace : Char := Char.ofNat 123

def closeBrace : Char := Char.ofNat 125

/-- Parsing tasks for the fueled JSON parser: a value, the elements of an
array after the first `[`, or the members of an object after the first
non-`}` token. -/
inductive JTask where
  | val
  | arr (acc : List JsonVal)
  | obj (acc : List (List Char × JsonVal))

/-- Fueled recursive-descent parser behind `jsonParse`.  Fuel strictly
decreases on every recursive call and `jsonParse` supplies fuel exceeding
the total number of calls any input can cause. -/
def jpar : Nat → JTask → List Char → Option (JsonVal × List Char)
  | 0, _, _ => none
  | fuel + 1, .val, s =>
    match skipWs s with
    | [] => none
    | c :: r =>
      if c = openBrace then
        match skipWs r with
        | [] => none
        | c2 :: r2 =>
          if c2 = closeBrace then some (.jobj [], r2)
          else jpar fuel (.obj []) (c2 :: r2)
      else if c = '[' then
        match skipWs r with
        | [] => none
        | ']' :: r2 => some (.jarr [], r2)
        | c2 :: r2 => jpar fuel (.arr []) (c2 :: r2)
      else if c = '"' then
        match parseJStr r with
        | some (cs, r2) => some (.jstr cs, r2)
        | none => none
      else
        match dropPre (toL "null") (c :: r) with
        | some r2 => some (.jnull, r2)
        | none =>
          match dropPre (toL "true") (c :: r) with
          | some r2 => some (.jbool true, r2)
          | none =>
            match dropPre (toL "false") (c :: r) with
            | some r2 => some (.jbool false, r2)
            | none => parseJNum (c :: r)
  | fuel + 1, .arr acc, s =>
    match jpar fuel .val s with
    | none => none
    | some (v, r) =>
      match skipWs r with
      | ',' :: r2 => jpar fuel (.arr (acc ++ [v])) r2
      | ']' :: r2 => some (.jarr (acc ++ [v]), r2)
      | _ => none
  | fuel + 1, .obj acc, s =>
    match skipWs s with
    | '"' :: r =>
      match parseJStr r with
      | none => none
      | some (k, r2) =>
        match skipWs r2 with
        | ':' :: r3 =>
          match jpar fuel .val r3 with
          | none => none
          | some (v, r4) =>
            match skipWs r4 with
            | ',' :: r5 => jpar fuel (.obj (acc ++ [(k, v)])) r5
            | c :: r5 =>
              if c = closeBrace then some (.jobj (acc ++ [(k, v)]), r5)
              else none
            | [] => none
        | _ => none
    | _ => none

/-- Model of `JSON.parse`: `some v` on success, `none` when it throws. -/
def jsonParse (s : List Char) : Option JsonVal :=
  match jpar (2 * s.length + 8) .val s with
  | some (v, r) => if skipWs r = [] then some v else none
  | none => none

/-- `JSON.stringify` escaping of one character inside a string literal. -/
def jsonQuoteChar (c : Char) : List Char :=
  if c = '"' then ['\\', '"']
  else if c = '\\' then ['\\', '\\']
  else if c = '\n' then ['\\', 'n']
  else if c = '\r' then ['\\', 'r']
  else if c = '\t' then ['\\', 't']
  else if c = '\x08' then ['\\', 'b']
  else if c = '\x0c' then ['\\', 'f']
  else if c.toNat < 0x20 then
    '\\' :: 'u' :: '0' :: '0' :: [Char.ofNat (48 + c.toNat / 16),
      if c.toNat % 16 < 10 then Char.ofNat (48 + c.toNat % 16)
      else Char.ofNat (87 + c.toNat % 16)]
  else [c]

/-- `JSON.stringify` of a string value. -/
def jsonQuote (s : List Char) : List Char :=
  '"' :: (s.map jsonQuoteChar).flatten ++ ['"']

mutual

/-- Model of `JSON.stringify` for JSON-representable values; keeps the
stored lexeme for numbers. -/
def jsonStringify : JsonVal → List Char
  | .jnull => toL "null"
  | .jbool true => toL "true"
  | .jbool false => toL "false"
  | .jnum lex => lex
  | .jstr s => jsonQuote s
  | .jarr xs => '[' :: jsonStringifyElems xs ++ [']']
  | .jobj ms => openBrace :: jsonStringifyMems ms ++ [closeBrace]

def jsonStringifyElems : List JsonVal → List Char
  | [] => []
  | [x] => jsonStringify x
  | x :: y :: rest => jsonStringify x ++ ',' :: jsonStringifyElems (y :: rest)

def jsonStringifyMems : List (List Char × JsonVal) → List Char
  | [] => []
  | [(k, v)] => jsonQuote k ++ ':' :: jsonStringify v
  | (k, v) :: m :: rest =>
    jsonQuote k ++ ':' :: jsonStringify v ++ ',' :: jsonStringifyMems (m :: rest)

end

/-! ## Data model of the converter -/

/-- The `code` field of a `ConversionError`. -/
inductive ErrCode where
  | INVALID_HTTP_FORMAT
  | UNSUPPORTED_METHOD
  | BODY_TOO_LARGE
  | INVALID_MULTIPART
  | INVALID_URL
deriving DecidableEq

/-- A thrown `ConversionError` (`createError(code, message)`). -/
structure ConvError where
  code : ErrCode
  message : List Char
deriving DecidableEq

/-- The `code` of the error of a failed call, `none` on success. -/
def errCodeOf {α : Type} : Except ConvError α → Option ErrCode
  | .error e => some e.code
  | .ok _ => none

/-- Header mappings produced by the parsers (JS `Record<string, string>`,
insertion-ordered, unique keys). -/
abbrev Headers := List (List Char × List Char)

/-- A value in a caller-supplied header object: JS distinguishes strings
from `null` and `undefined`. -/
inductive HVal where
  | vstr (s : List Char)
  | vnull
  | vundef
deriving DecidableEq

instance : Inhabited HVal := ⟨.vundef⟩

/-- `${value}` interpolation of a header value. -/
def hvalText : HVal → List Char
  | .vstr s => s
  | .vnull => toL "null"
  | .vundef => toL "undefined"

/-- JS truthiness of a header value. -/
def hvalTruthy : HVal → Bool
  | .vstr s => !s.isEmpty
  | .vnull => false
  | .vundef => false

/-- Caller-supplied header objects on the encode paths. -/
abbrev HeadersIn := List (List Char × HVal)

/-- Lookup in a caller-supplied header object. -/
def objGetIn (m : HeadersIn) (k : List Char) : Option HVal :=
  (m.find? (fun p => p.1 = k)).map (fun p => p.2)

/-- A decoded file part (`files` entry of `MultipartFormData`). -/
structure MPFile where
  name : List Char
  filename : List Char
  contentType : List Char
  data : List Char
deriving DecidableEq

/-- Result of `parseMultipartData`. -/
structure MultipartFormData where
  fields : Headers
  files : List MPFile
deriving DecidableEq

/-- Result of `parseHttpRequest`. -/
structure ParsedHttpRequest where
  method : List Char
  url : List Char
  headers : Headers
  body : Option (List Char)
  multipartData : Option MultipartFormData
deriving DecidableEq

/-- Result of `parseHttpResponse`. -/
structure ParsedHttpResponse where
  status : Nat
  statusText : List Char
  headers : Headers
  body : Option (List Char)
deriving DecidableEq

/-- One entry of a `FormData` object: `append(key, string)` stores a plain
field; `append(key, blob, filename)` stores a file-like value with a
`name` (the filename), a MIME `type` and its byte content. -/
inductive FormEntry where
  | field (value : List Char)
  | file (filename : List Char) (contentType : List Char) (data : List Char)
deriving DecidableEq

/-- A `FormData` object: its entries in insertion order. -/
structure FormDataM where
  entries : List (List Char × FormEntry)
deriving DecidableEq

/-- The `data` value of an axios request/response: one constructor per
JS value kind the converter dispatches on.  `obj` covers non-null plain
objects and arrays (serialized through `JSON.stringify`). -/
inductive AxiosData where
  | undef
  | null
  | jsbool (b : Bool)
  | num (n : Int)
  | str (s : List Char)
  | bytes (b : List Char)
  | obj (j : JsonVal)
  | form (fd : FormDataM)

/-- JS truthiness of a `data` value (objects, buffers and form data are
always truthy; `NaN` is not modelled). -/
def AxiosData.truthy : AxiosData → Bool
  | .undef => false
  | .null => false
  | .jsbool b => b
  | .num n => n ≠ 0
  | .str s => !s.isEmpty
  | .bytes _ => true
  | .obj _ => true
  | .form _ => true

/-- `data instanceof FormData`. -/
def AxiosData.isForm : AxiosData → Bool
  | .form _ => true
  | _ => false

/-- `typeof data === 'string'`. -/
def AxiosData.isStr : AxiosData → Bool
  | .str _ => true
  | _ => false

/-- `data instanceof ArrayBuffer || data instanceof Uint8Array`. -/
def AxiosData.isBytes : AxiosData → Bool
  | .bytes _ => true
  | _ => false

/-- `JSON.stringify(data)` for the values reaching the JSON fallback
branch of the encoders (truthy, not a string, not a byte buffer).  A
`FormData` object has no enumerable own properties, so it stringifies to
an empty JSON object. -/
def jsonStringifyData : AxiosData → List Char
  | .undef => toL "undefined"
  | .null => toL "null"
  | .jsbool true => toL "true"
  | .jsbool false => toL "false"
  | .num n => intToChars n
  | .str s => jsonQuote s
  | .bytes _ => toL "\x7b\x7d"
  | .obj j => jsonStringify j
  | .form _ => toL "\x7b\x7d"

/-- A decoded `data` value on the response decode path. -/
inductive RespData where
  | empty
  | bytes (b : List Char)
  | str (s : List Char)
  | json (j : JsonVal)

/-- A custom `transformResponse` function; `none` models a thrown
exception (which the converter catches and ignores). -/
abbrev TransformFn := RespData → Headers → Option RespData

/-- Configuration captured at construction: `maxBodySize` is stored but
(as the claims note) never read by any conversion; `multipartBoundary` is
the configured or generated boundary. -/
structure ConverterOptions where
  maxBodySize : Option Nat
  preserveHeaderCase : Bool
  multipartBoundary : List Char
  transformResponse : Option (List TransformFn)

/-- An axios request config as consumed/produced by the converter. -/
structure AxiosRequestConfigM where
  method : Option (List Char)
  url : Option (List Char)
  headers : HeadersIn
  data : AxiosData

/-- An axios response as consumed by `axiosResponseToHttpBytes`. -/
structure AxiosResponseInM where
  status : Nat
  statusText : List Char
  headers : HeadersIn
  data : AxiosData

/-- An axios response as produced by `httpBytesToAxiosResponse`. -/
structure AxiosResponseOutM where
  data : RespData
  status : Nat
  statusText : List Char
  headers : Headers

/-! ## The converter's functions -/

/-- The header-scanning loop shared by `parseHttpRequest`,
`parseHttpResponse` (from line index 1) and the per-part loop of
`parseMultipartData` (from index 0, `pc = false`): scan lines in order,
stop at the first empty (falsy) line returning `some (i+1)` as the body
start index (`none` models the `-1` of a missing blank line); a line whose
first colon is absent or at position 0 is skipped; otherwise the key
(lowercased unless `pc`) maps to the trimmed remainder, last wins. -/
def headerLoop (pc : Bool) : List (List Char) → Nat → Headers → Headers × Option Nat
  | [], _, acc => (acc, none)
  | l :: rest, i, acc =>
    if l = [] then (acc, some (i + 1))
    else
      match breakColon l with
      | some (k, v) =>
        if k = [] then headerLoop pc rest (i + 1) acc
        else headerLoop pc rest (i + 1)
          (objInsert acc (if pc then k else toLowerL k) (trimL v))
      | none => headerLoop pc rest (i + 1) acc

/-- Processing of one boundary-delimited chunk of `parseMultipartData`'s
`for (const part of parts)` loop body. -/
def processPart (acc : MultipartFormData) (part : List Char) : MultipartFormData :=
  if trimL part = [] || trimL part = toL "--" then acc
  else
    let lines := splitSeq (toL "\r\n") part
    let scanned := headerLoop false lines 0 []
    match scanned.2 with
    | none => acc
    | some csi =>
      let content := joinSeq (toL "\r\n") (lines.drop csi)
      let disposition := (objGet scanned.1 (toL "content-disposition")).getD []
      match quotedCapture (toL "name=\"") disposition with
      | none => acc
      | some nm =>
        match quotedCapture (toL "filename=\"") disposition with
        | some fn =>
          { acc with files := acc.files ++
              [⟨nm, fn, (objGet scanned.1 (toL "content-type")).getD
                (toL "application/octet-stream"), content⟩] }
        | none => { acc with fields := objInsert acc.fields nm content }

/-- `parseMultipartData(body, contentType)`. -/
def parseMultipartData (body contentType : List Char) :
    Except ConvError MultipartFormData :=
  match boundaryCapture contentType with
  | none => .error ⟨.INVALID_MULTIPART, toL "No boundary found in multipart content type"⟩
  | some b =>
    let boundary := toL "--" ++ b
    let parts := splitSeq boundary body
    .ok (parts.foldl processPart ⟨[], []⟩)

/-- `parseHttpRequest(httpBytes)`. -/
def parseHttpRequest (opts : ConverterOptions) (text : List Char) :
    Except ConvError ParsedHttpRequest :=
  let lines := splitSeq (toL "\r\n") text
  if lines.length < 2 then
    .error ⟨.INVALID_HTTP_FORMAT, toL "Invalid HTTP request format"⟩
  else
    let requestLine := lines.headD []
    if requestLine = [] then
      .error ⟨.INVALID_HTTP_FORMAT, toL "Invalid request line"⟩
    else
      let requestParts := splitSeq [' '] requestLine
      if requestParts.length < 3 then
        .error ⟨.INVALID_HTTP_FORMAT, toL "Invalid request line"⟩
      else
        let method := requestParts.headD []
        let url := (requestParts.drop 1).headD []
        let scanned := headerLoop opts.preserveHeaderCase (lines.drop 1) 1 []
        match scanned.2 with
        | some bsi =>
          if bsi < lines.length then
            let bodyText := joinSeq (toL "\r\n") (lines.drop bsi)
            let contentType := (objGet scanned.1 (toL "content-type")).getD []
            if containsSeq (toL "multipart/form-data") contentType then
              match parseMultipartData bodyText contentType with
              | .error e => .error e
              | .ok mp => .ok ⟨method, url, scanned.1, some bodyText, some mp⟩
            else .ok ⟨method, url, scanned.1, some bodyText, none⟩
          else .ok ⟨method, url, scanned.1, none, none⟩
        | none => .ok ⟨method, url, scanned.1, none, none⟩

/-- `parseHttpResponse(httpBytes)`.  The response parser stores a body
only when the joined body text is nonempty. -/
def parseHttpResponse (opts : ConverterOptions) (text : List Char) :
    Except ConvError ParsedHttpResponse :=
  let lines := splitSeq (toL "\r\n") text
  if lines.length < 2 then
    .error ⟨.INVALID_HTTP_FORMAT, toL "Invalid HTTP response format"⟩
  else
    let statusLine := lines.headD []
    if statusLine = [] then
      .error ⟨.INVALID_HTTP_FORMAT, toL "Invalid status line"⟩
    else
      match statusLineMatch statusLine with
      | none => .error ⟨.INVALID_HTTP_FORMAT, toL "Invalid status line"⟩
      | some caps =>
        let status := digitsToNat caps.1
        let statusText := caps.2
        let scanned := headerLoop opts.preserveHeaderCase (lines.drop 1) 1 []
        match scanned.2 with
        | some bsi =>
          if bsi < lines.length then
            let bodyText := joinSeq (toL "\r\n") (lines.drop bsi)
            if bodyText.length > 0 then
              .ok ⟨status, statusText, scanned.1, some bodyText⟩
            else .ok ⟨status, statusText, scanned.1, none⟩
          else .ok ⟨status, statusText, scanned.1, none⟩
        | none => .ok ⟨status, statusText, scanned.1, none⟩

/-- One part emitted by `buildMultipartBody`: a field part carries its
value followed by CRLF; a file part carries its headers and raw content
with no trailing CRLF (the next boundary marker is appended directly). -/
def buildMultipartPart (boundary : List Char) (kv : List Char × FormEntry) : List Char :=
  match kv.2 with
  | .field v =>
    toL "--" ++ boundary ++ toL "\r\n" ++
    toL "Content-Disposition: form-data; name=\"" ++ kv.1 ++ toL "\"\r\n" ++
    toL "\r\n" ++ v ++ toL "\r\n"
  | .file fn ct dataBytes =>
    let filename := if fn = [] then toL "blob" else fn
    let contentType := if ct = [] then toL "application/octet-stream" else ct
    toL "--" ++ boundary ++ toL "\r\n" ++
    toL "Content-Disposition: form-data; name=\"" ++ kv.1 ++
      toL "\"; filename=\"" ++ filename ++ toL "\"\r\n" ++
    toL "Content-Type: " ++ contentType ++ toL "\r\n" ++
    toL "\r\n" ++ dataBytes

/-- `buildMultipartBody(formData, boundary)` (the awaited blob read
returns the attachment's bytes). -/
def buildMultipartBody (fd : FormDataM) (boundary : List Char) : List Char :=
  (fd.entries.map (buildMultipartPart boundary)).flatten ++
    toL "--" ++ boundary ++ toL "--\r\n"

/-- The header-emission loop of `axiosRequestToHttpBytes`: skips entries
whose value is `undefined`/`null`, skips `content-type`/`content-length`
when the data is `FormData`, and skips `content-type` when the data is
falsy; emitted keys are lowercased unless `pc`. -/
def emitReqHeaders (pc isFD dTruthy : Bool) : HeadersIn → List Char
  | [] => []
  | (k, v) :: rest =>
    match v with
    | .vnull => emitReqHeaders pc isFD dTruthy rest
    | .vundef => emitReqHeaders pc isFD dTruthy rest
    | .vstr s =>
      let kl := toLowerL k
      if isFD && (kl = toL "content-type" || kl = toL "content-length") then
        emitReqHeaders pc isFD dTruthy rest
      else if !dTruthy && kl = toL "content-type" then
        emitReqHeaders pc isFD dTruthy rest
      else
        (if pc then k else kl) ++ toL ": " ++ s ++ toL "\r\n" ++
          emitReqHeaders pc isFD dTruthy rest

/-- The header-emission loop of `axiosResponseToHttpBytes`: no entry is
ever skipped; values are interpolated with `${value}`. -/
def emitRespHeaders (pc : Bool) : HeadersIn → List Char
  | [] => []
  | (k, v) :: rest =>
    (if pc then k else toLowerL k) ++ toL ": " ++ hvalText v ++ toL "\r\n" ++
      emitRespHeaders pc rest

/-- `config.data || 'default'` for the optional string fields. -/
def jsDefault (o : Option (List Char)) (d : List Char) : List Char :=
  match o with
  | none => d
  | some s => if s = [] then d else s

/-- `axiosRequestToHttpBytes(config)` (the returned buffer, as text). -/
def axiosRequestToHttpBytes (opts : ConverterOptions) (config : AxiosRequestConfigM) :
    List Char :=
  let method := toUpperL (jsDefault config.method (toL "GET"))
  let url := jsDefault config.url []
  let data := config.data
  let requestLine := method ++ [' '] ++ url ++ toL " HTTP/1.1\r\n"
  let emitted := emitReqHeaders opts.preserveHeaderCase data.isForm data.truthy config.headers
  match data with
  | .form fd =>
    let boundary := opts.multipartBoundary
    let multipartBody := buildMultipartBody fd boundary
    requestLine ++ emitted ++
      toL "content-type: multipart/form-data; boundary=" ++ boundary ++ toL "\r\n" ++
      toL "content-length: " ++ natToChars (utf8Len multipartBody) ++ toL "\r\n" ++
      toL "\r\n" ++ multipartBody
  | _ =>
    if data.truthy then
      match data with
      | .str s =>
        requestLine ++ emitted ++
          toL "content-length: " ++ natToChars (utf8Len s) ++ toL "\r\n" ++
          toL "\r\n" ++ s
      | .bytes b =>
        requestLine ++ emitted ++
          toL "content-length: " ++ natToChars (utf8Len b) ++ toL "\r\n" ++
          toL "\r\n" ++ b
      | other =>
        let bodyChars := jsonStringifyData other
        let hasCT := config.headers.any (fun kv => toLowerL kv.1 = toL "content-type")
        requestLine ++ emitted ++
          (if hasCT then [] else toL "content-type: application/json\r\n") ++
          toL "content-length: " ++ natToChars (utf8Len bodyChars) ++ toL "\r\n" ++
          toL "\r\n" ++ bodyChars
    else requestLine ++ emitted ++ toL "\r\n"

/-- `axiosResponseToHttpBytes(response)` (the returned buffer, as text).
Note the response encoder has no `FormData` branch: form data falls into
the `JSON.stringify` fallback; its auto `Content-Type` check reads the
`'content-type'` key of the caller's header object case-sensitively. -/
def axiosResponseToHttpBytes (opts : ConverterOptions) (res : AxiosResponseInM) :
    List Char :=
  let statusLine := toL "HTTP/1.1 " ++ natToChars res.status ++ [' '] ++
    res.statusText ++ toL "\r\n"
  let emitted := emitRespHeaders opts.preserveHeaderCase res.headers
  if res.data.truthy then
    match res.data with
    | .str s =>
      statusLine ++ emitted ++
        toL "Content-Length: " ++ natToChars (utf8Len s) ++ toL "\r\n" ++
        toL "\r\n" ++ s
    | .bytes b =>
      statusLine ++ emitted ++
        toL "Content-Length: " ++ natToChars (utf8Len b) ++ toL "\r\n" ++
        toL "\r\n" ++ b
    | other =>
      let bodyChars := jsonStringifyData other
      let ctVal := objGetIn res.headers (toL "content-type")
      let hasCT := match ctVal with
        | some v => hvalTruthy v
        | none => false
      statusLine ++ emitted ++
        (if hasCT then [] else toL "Content-Type: application/json\r\n") ++
        toL "Content-Length: " ++ natToChars (utf8Len bodyChars) ++ toL "\r\n" ++
        toL "\r\n" ++ bodyChars
  else statusLine ++ emitted ++ toL "\r\n"

/-- `httpBytesToAxiosRequest(httpBytes)`: lowercases the method and
replaces the body with a rebuilt `FormData` when multipart data was
parsed (fields appended first, then files as blobs). -/
def httpBytesToAxiosRequest (opts : ConverterOptions) (text : List Char) :
    Except ConvError AxiosRequestConfigM :=
  match parseHttpRequest opts text with
  | .error e => .error e
  | .ok p =>
    let baseData : AxiosData :=
      match p.body with
      | some b => .bytes b
      | none => .undef
    let data : AxiosData :=
      match p.multipartData with
      | some mp =>
        .form ⟨mp.fields.map (fun kv => (kv.1, .field kv.2)) ++
               mp.files.map (fun f => (f.name, .file f.filename f.contentType f.data))⟩
      | none => baseData
    .ok ⟨some (toLowerL p.method), some p.url,
        p.headers.map (fun kv => (kv.1, .vstr kv.2)), data⟩

/-- The content-type condition of the JSON dispatch branch:
`contentType.includes('application/json') || /^application\/.*\+json$/.test(contentType)`. -/
def isJsonCT (ct : List Char) : Bool :=
  containsSeq (toL "application/json") ct ||
    (isPre (toL "application/") ct &&
     isPre (toL "nosj+") ct.reverse &&
     decide (12 + 5 ≤ ct.length) &&
     ((ct.drop 12).take (ct.length - 17)).all (fun c => c ≠ '\n' && c ≠ '\r'))

/-- The built-in content-type dispatch applied to a parsed response body
(`TextDecoder().decode` never throws, so the catch branches of the
text-decoding cases are unreachable and every non-JSON case decodes). -/
def dispatchBody (headers : Headers) (body : Option (List Char)) : RespData :=
  match body with
  | none => .empty
  | some b =>
    if utf8Len b > 0 then
      let ct := (objGet headers (toL "content-type")).getD []
      if isJsonCT ct then
        match jsonParse b with
        | some j => .json j
        | none => .bytes b
      else if isPre (toL "text/") ct then .str b
      else if containsSeq (toL "application/x-www-form-urlencoded") ct then .str b
      else if containsSeq (toL "application/xml") ct || containsSeq (toL "text/xml") ct then .str b
      else if containsSeq (toL "application/octet-stream") ct then .str b
      else .str b
    else .bytes b

/-- The custom `transformResponse` chain: each function is applied in
order; one that throws (`none`) is caught and the previous value kept. -/
def applyTransforms : List TransformFn → RespData → Headers → RespData
  | [], d, _ => d
  | t :: ts, d, h =>
    match t d h with
    | some d2 => applyTransforms ts d2 h
    | none => applyTransforms ts d h

/-- `httpBytesToAxiosResponse(httpBytes)`. -/
def httpBytesToAxiosResponse (opts : ConverterOptions) (text : List Char) :
    Except ConvError AxiosResponseOutM :=
  match parseHttpResponse opts text with
  | .error e => .error e
  | .ok p =>
    let transformed := dispatchBody p.headers p.body
    let final :=
      match opts.transformResponse with
      | some ts => applyTransforms ts transformed p.headers
      | none => transformed
    .ok ⟨final, p.status, p.statusText, p.headers⟩

/-! ## Spec-side definitions and concrete values used by the claims -/

/-- The header mapping prescribed by claim C3's words: the key is the
substring before the first colon, trimmed of whitespace and lowercased
unless case preservation is configured; the value is the substring after
the first colon trimmed; lines without a colon are dropped; on duplicate
post-normalization keys the last line wins. -/
def specHeaderMapClaim (pc : Bool) (lines : List (List Char)) : Headers :=
  (lines.filterMap (fun l =>
    (breakColon l).map (fun p =>
      ((if pc then trimL p.1 else toLowerL (trimL p.1)), trimL p.2)))).foldl
    (fun m kv => objInsert m kv.1 kv.2) []

/-- Entry extraction actually performed per header line: the line is
dropped when its first colon is missing or at position 0; the key is the
untrimmed substring before the colon, lowercased unless `pc`; the value
is the substring after the colon, trimmed. -/
def lineKV (pc : Bool) (l : List Char) : Option (List Char × List Char) :=
  match breakColon l with
  | none => none
  | some (k, v) =>
    if k = [] then none
    else some ((if pc then k else toLowerL k), trimL v)

/-- The header mapping of the amended claim C3: fold the extracted
entries into a last-wins map. -/
def specHeaderMapAmended (pc : Bool) (lines : List (List Char)) : Headers :=
  (lines.filterMap (lineKV pc)).foldl (fun m kv => objInsert m kv.1 kv.2) []

/-- The serialized body bytes of a truthy non-`FormData` `data` value on
the encode paths. -/
def reqBodyBytes : AxiosData → List Char
  | .str s => s
  | .bytes b => b
  | other => jsonStringifyData other

/-- The header-filter predicate of claim C9: keep an entry iff its value
is a string (not `undefined`/`null`), it is not a `content-type` or
`content-length` entry of a `FormData` request, and it is not a
`content-type` entry of a bodiless request. -/
def keepReqHeader (isFD dT : Bool) (kv : List Char × HVal) : Bool :=
  (match kv.2 with
   | .vstr _ => true
   | .vnull => false
   | .vundef => false) &&
  !(isFD && (toLowerL kv.1 = toL "content-type" || toLowerL kv.1 = toL "content-length")) &&
  !(!dT && toLowerL kv.1 = toL "content-type")

/-- Fixed options used by the concrete witnesses: unbounded body size, no
case preservation, boundary `B`, no custom transforms. -/
def defOpts : ConverterOptions := ⟨none, false, toL "B", none⟩

/-- A form with one text field and one named file attachment (claim C1's
quantified shape at a concrete instance). -/
def demoFD : FormDataM :=
  ⟨[(toL "name", .field (toL "John")),
    (toL "file", .file (toL "test.txt") (toL "text/plain") (toL "Hello World"))]⟩

/-- The request config that carries `demoFD` through request encode. -/
def demoMpConfig : AxiosRequestConfigM :=
  ⟨some (toL "POST"), some (toL "/upload"), [], .form demoFD⟩

/-! ## Theorems -/

set_option maxRecDepth 100000

/-- `parseMultipartData` throws only `INVALID_MULTIPART`. -/
theorem parseMultipartData_error_code (body ct : List Char) (e : ConvError)
    (h : parseMultipartData body ct = .error e) : e.code = .INVALID_MULTIPART := by
  unfold parseMultipartData at h
  split at h
  · cases h
    rfl
  · cases h

/-- `parseHttpRequest` throws only `INVALID_HTTP_FORMAT` or
`INVALID_MULTIPART`. -/
theorem parseHttpRequest_error_code (opts : ConverterOptions) (text : List Char)
    (e : ConvError) (h : parseHttpRequest opts text = .error e) :
    e.code = .INVALID_HTTP_FORMAT ∨ e.code = .INVALID_MULTIPART := by
  unfold parseHttpRequest at h
  simp only [] at h
  split at h
  · cases h
    exact .inl rfl
  · split at h
    · cases h
      exact .inl rfl
    · split at h
      · cases h
        exact .inl rfl
      · split at h
        · split at h
          · split at h
            · split at h
              · rename_i heq
                cases h
                exact .inr (parseMultipartData_error_code _ _ _ heq)
              · cases h
            · cases h
          · cases h
        · cases h

/-- `parseHttpResponse` throws only `INVALID_HTTP_FORMAT`. -/
theorem parseHttpResponse_error_code (opts : ConverterOptions) (text : List Char)
    (e : ConvError) (h : parseHttpResponse opts text = .error e) :
    e.code = .INVALID_HTTP_FORMAT := by
  unfold parseHttpResponse at h
  simp only [] at h
  split at h
  · cases h
    rfl
  · split at h
    · cases h
      rfl
    · split at h
      · cases h
        rfl
      · split at h
        · split at h
          · split at h
            · cases h
            · cases h
          · cases h
        · cases h

/-- The decode entry points fail exactly when their parser fails. -/
theorem httpBytesToAxiosRequest_errCode (opts : ConverterOptions) (text : List Char) :
    errCodeOf (httpBytesToAxiosRequest opts text) = errCodeOf (parseHttpRequest opts text) := by
  unfold httpBytesToAxiosRequest
  cases hp : parseHttpRequest opts text <;> simp [errCodeOf]

/-- The response decode entry point fails exactly when its parser fails. -/
theorem httpBytesToAxiosResponse_errCode (opts : ConverterOptions) (text : List Char) :
    errCodeOf (httpBytesToAxiosResponse opts text) = errCodeOf (parseHttpResponse opts text) := by
  unfold httpBytesToAxiosResponse
  cases hp : parseHttpResponse opts text <;> simp [errCodeOf]

/-- C8: for every input and every pair of configured `maxBodySize` values,
request decode and response decode produce identical results — the option
is stored by the constructor but never read by any conversion — and no
decode call ever fails with a `BODY_TOO_LARGE` error code. -/
theorem C8_maxBodySize_never_enforced (pc : Bool) (bd : List Char)
    (tr : Option (List TransformFn)) (m1 m2 : Option Nat) (text : List Char) :
    httpBytesToAxiosRequest ⟨m1, pc, bd, tr⟩ text =
      httpBytesToAxiosRequest ⟨m2, pc, bd, tr⟩ text ∧
    httpBytesToAxiosResponse ⟨m1, pc, bd, tr⟩ text =
      httpBytesToAxiosResponse ⟨m2, pc, bd, tr⟩ text ∧
    errCodeOf (httpBytesToAxiosRequest ⟨m1, pc, bd, tr⟩ text) ≠ some .BODY_TOO_LARGE ∧
    errCodeOf (httpBytesToAxiosResponse ⟨m1, pc, bd, tr⟩ text) ≠ some .BODY_TOO_LARGE := by
  refine ⟨rfl, rfl, ?_, ?_⟩
  · rw [httpBytesToAxiosRequest_errCode]
    cases hp : parseHttpRequest ⟨m1, pc, bd, tr⟩ text with
    | error e =>
      rcases parseHttpRequest_error_code _ _ _ hp with hc | hc <;>
        simp [errCodeOf, hc]
    | ok _ => simp [errCodeOf]
  · rw [httpBytesToAxiosResponse_errCode]
    cases hp : parseHttpResponse ⟨m1, pc, bd, tr⟩ text with
    | error e =>
      have hc := parseHttpResponse_error_code _ _ _ hp
      simp [errCodeOf, hc]
    | ok _ => simp [errCodeOf]

/-- C1: the multipart codec does **not** round-trip.  Encoding a form with
one text field (`name` ↦ `John`) and one file attachment (`file`,
`test.txt`, `text/plain`, `Hello World`) with the multipart writer and
decoding the bytes with the multipart reader recovers an **empty** form:
after splitting on `--<boundary>`, each part starts with the CRLF that
terminated the boundary line, so the reader's per-part header loop takes
that leading empty line as the header/body separator, parses no part
headers, finds no `content-disposition` and skips every part.  The same
happens through the full request encode/decode pipeline. -/
theorem C1_multipart_roundtrip_lost :
    parseMultipartData (buildMultipartBody demoFD (toL "B"))
      (toL "multipart/form-data; boundary=B") = .ok ⟨[], []⟩ ∧
    (httpBytesToAxiosRequest defOpts
        (axiosRequestToHttpBytes defOpts demoMpConfig)).map (fun c => c.data) =
      .ok (.form ⟨[]⟩) :=
  ⟨rfl, rfl⟩

/-- C4: an input whose request line has fewer than three space-separated
tokens makes request decode fail with code `INVALID_HTTP_FORMAT`, and an
input whose status line does not match the status-line pattern makes
response decode fail with code `INVALID_HTTP_FORMAT`. -/
theorem C4_malformed_start_lines (opts opts2 : ConverterOptions) (t1 t2 : List Char)
    (h1 : (splitSeq [' '] ((splitSeq (toL "\r\n") t1).headD [])).length < 3)
    (h2 : statusLineMatch ((splitSeq (toL "\r\n") t2).headD []) = none) :
    errCodeOf (parseHttpRequest opts t1) = some .INVALID_HTTP_FORMAT ∧
    errCodeOf (parseHttpResponse opts2 t2) = some .INVALID_HTTP_FORMAT := by
  constructor
  · unfold parseHttpRequest
    simp only []
    repeat' split
    all_goals rfl
  · unfold parseHttpResponse
    simp only []
    repeat' split
    all_goals first
      | rfl
      | simp_all

/-- Witness for C4 at the spec's own examples. -/
theorem C4_malformed_start_lines_witness :
    errCodeOf (parseHttpRequest defOpts (toL "GET\r\n\r\n")) = some .INVALID_HTTP_FORMAT ∧
    errCodeOf (parseHttpResponse defOpts (toL "HTTP/1.1\r\n\r\n")) = some .INVALID_HTTP_FORMAT :=
  C4_malformed_start_lines defOpts defOpts (toL "GET\r\n\r\n") (toL "HTTP/1.1\r\n\r\n")
    (by decide) (by decide)

/-- C5 (amended): when request decode reaches the body phase — the start
line is well-formed, the header scan finds a blank line that is not the
final split element — and the parsed `content-type` contains
`multipart/form-data` with no `boundary=` capture, decode fails with
`INVALID_MULTIPART` (the boundary check precedes any splitting of the
body in `parseMultipartData`).  Without a body section the content type
is never examined and no such error is raised (see the counterexample
`C5_no_body_no_error`). -/
theorem C5_missing_boundary (opts : ConverterOptions) (text : List Char)
    (hdrs : Headers) (bsi : Nat)
    (hlen : ¬ (splitSeq (toL "\r\n") text).length < 2)
    (hline : ¬ (splitSeq (toL "\r\n") text).headD [] = [])
    (hparts : ¬ (splitSeq [' '] ((splitSeq (toL "\r\n") text).headD [])).length < 3)
    (hscan : headerLoop opts.preserveHeaderCase
      ((splitSeq (toL "\r\n") text).drop 1) 1 [] = (hdrs, some bsi))
    (hbsi : bsi < (splitSeq (toL "\r\n") text).length)
    (hmp : containsSeq (toL "multipart/form-data")
      ((objGet hdrs (toL "content-type")).getD []) = true)
    (hnb : boundaryCapture ((objGet hdrs (toL "content-type")).getD []) = none) :
    parseHttpRequest opts text =
      .error ⟨.INVALID_MULTIPART, toL "No boundary found in multipart content type"⟩ := by
  unfold parseHttpRequest
  simp only []
  rw [if_neg hlen, if_neg hline, if_neg hparts, hscan]
  simp only []
  rw [if_pos hbsi]
  rw [hmp]
  simp only [if_true]
  unfold parseMultipartData
  rw [hnb]

/-- Counterexample to C5 as stated: a request whose `content-type`
declares `multipart/form-data` with no boundary but which has no body
section decodes successfully — no `INVALID_MULTIPART` error is raised. -/
theorem C5_no_body_no_error :
    parseHttpRequest defOpts
      (toL "GET / HTTP/1.1\r\ncontent-type: multipart/form-data") =
    .ok ⟨toL "GET", toL "/",
      [(toL "content-type", toL "multipart/form-data")], none, none⟩ := rfl

/-- Witness for C5 at a concrete request that does reach the body phase. -/
theorem C5_missing_boundary_witness :
    parseHttpRequest defOpts
      (toL "POST /u HTTP/1.1\r\ncontent-type: multipart/form-data\r\n\r\nx") =
    .error ⟨.INVALID_MULTIPART, toL "No boundary found in multipart content type"⟩ :=
  C5_missing_boundary defOpts
    (toL "POST /u HTTP/1.1\r\ncontent-type: multipart/form-data\r\n\r\nx")
    [(toL "content-type", toL "multipart/form-data")] 3
    (by decide) (by decide) (by decide) (by rfl) (by decide) (by rfl) (by rfl)

/-- C10 (amended): on an input whose blank-line separator is the
second-to-last split element and is immediately followed by end of input
(the elements from the body start index onward are exactly one empty
line), whenever request decode succeeds its body is a present zero-length
buffer, and whenever response decode succeeds on the same input its body
is absent (the response parser stores a body only when the joined body
text is nonempty). -/
theorem C10_empty_body_asymmetry (opts : ConverterOptions) (text : List Char)
    (hdrs : Headers) (bsi : Nat) (r : ParsedHttpRequest) (r2 : ParsedHttpResponse)
    (hscan : headerLoop opts.preserveHeaderCase
      ((splitSeq (toL "\r\n") text).drop 1) 1 [] = (hdrs, some bsi))
    (hdrop : (splitSeq (toL "\r\n") text).drop bsi = [[]])
    (hreq : parseHttpRequest opts text = .ok r)
    (hresp : parseHttpResponse opts text = .ok r2) :
    r.body = some [] ∧ r2.body = none := by
  have hbsi : bsi < (splitSeq (toL "\r\n") text).length := by
    by_contra hge
    have : (splitSeq (toL "\r\n") text).drop bsi = [] :=
      List.drop_eq_nil_of_le (Nat.le_of_not_lt hge)
    rw [hdrop] at this
    cases this
  have hjoin : joinSeq (toL "\r\n") ((splitSeq (toL "\r\n") text).drop bsi) = [] := by
    rw [hdrop]
    rfl
  constructor
  · unfold parseHttpRequest at hreq
    simp only [] at hreq
    split at hreq
    · cases hreq
    · split at hreq
      · cases hreq
      · split at hreq
        · cases hreq
        · rw [hscan] at hreq
          simp only [] at hreq
          rw [if_pos hbsi] at hreq
          split at hreq
          · split at hreq
            · cases hreq
            · cases hreq
              simp [hjoin]
          · cases hreq
            simp [hjoin]
  · unfold parseHttpResponse at hresp
    simp only [] at hresp
    split at hresp
    · cases hresp
    · split at hresp
      · cases hresp
      · split at hresp
        · cases hresp
        · rw [hscan] at hresp
          simp only [] at hresp
          rw [if_pos hbsi] at hresp
          rw [hjoin] at hresp
          simp only [List.length_nil, gt_iff_lt, Nat.lt_irrefl, if_false] at hresp
          cases hresp
          rfl

/-- Counterexample to C10 as stated: a request input of exactly the
claimed shape (separator immediately followed by end of input) on which
request decode raises instead of returning a present zero-length body. -/
theorem C10_multipart_header_throws :
    parseHttpRequest defOpts
      (toL "GET / HTTP/1.1\r\ncontent-type: multipart/form-data\r\n\r\n") =
    .error ⟨.INVALID_MULTIPART, toL "No boundary found in multipart content type"⟩ := rfl

/-- Witness for C10 at an input that parses both as a request and as a
response. -/
theorem C10_empty_body_asymmetry_witness :
    (⟨toL "X", toL "HTTP/1.1", [], some [], none⟩ : ParsedHttpRequest).body = some [] ∧
    (⟨200, toL "OK", [], none⟩ : ParsedHttpResponse).body = none :=
  C10_empty_body_asymmetry defOpts (toL "X HTTP/1.1 200 OK\r\n\r\n") [] 2
    ⟨toL "X", toL "HTTP/1.1", [], some [], none⟩ ⟨200, toL "OK", [], none⟩
    (by rfl) (by rfl) (by rfl) (by rfl)

/-- C2: on a response whose parsed `content-type` satisfies the JSON
dispatch condition (`includes('application/json')` or the
`application/*+json` pattern) and whose body is present and nonempty,
response decode (with no custom transforms) never raises: when
`JSON.parse` succeeds the parsed value is returned as `data`, and when it
fails the raw body bytes are returned instead. -/
theorem C2_json_parse_fallback (opts : ConverterOptions) (text : List Char)
    (p : ParsedHttpResponse) (b : List Char)
    (htr : opts.transformResponse = none)
    (hp : parseHttpResponse opts text = .ok p)
    (hb : p.body = some b)
    (hlen : 0 < utf8Len b)
    (hct : isJsonCT ((objGet p.headers (toL "content-type")).getD []) = true) :
    httpBytesToAxiosResponse opts text =
      .ok ⟨(match jsonParse b with
            | some j => .json j
            | none => .bytes b), p.status, p.statusText, p.headers⟩ := by
  unfold httpBytesToAxiosResponse dispatchBody
  rw [hp, htr]
  simp only []
  rw [hb]
  simp only [gt_iff_lt, hlen, if_true, hct]

/-- Witness for C2 at the spec's own example: `application/json` with the
unterminated body; `JSON.parse` fails, so `data` is the raw body. -/
theorem C2_json_parse_fallback_witness :
    httpBytesToAxiosResponse defOpts
      (toL "HTTP/1.1 200 OK\r\ncontent-type: application/json\r\n\r\n\x7b\"message\":\"hello\"") =
    .ok ⟨(match jsonParse (toL "\x7b\"message\":\"hello\"") with
          | some j => .json j
          | none => .bytes (toL "\x7b\"message\":\"hello\"")), 200, toL "OK",
         [(toL "content-type", toL "application/json")]⟩ :=
  C2_json_parse_fallback defOpts
    (toL "HTTP/1.1 200 OK\r\ncontent-type: application/json\r\n\r\n\x7b\"message\":\"hello\"")
    ⟨200, toL "OK", [(toL "content-type", toL "application/json")],
      some (toL "\x7b\"message\":\"hello\"")⟩
    (toL "\x7b\"message\":\"hello\"")
    (by rfl) (by rfl) (by rfl) (by decide) (by rfl)

/-- The unterminated body of the C2 witness indeed fails `JSON.parse`, so
the witness's `data` value is the raw body buffer, not an error. -/
theorem C2_witness_body_is_raw :
    jsonParse (toL "\x7b\"message\":\"hello\"") = none := rfl

/-- Replacing the value at key `k1` throughout a map changes lookups only
at `k1`, where a present value becomes `v`. -/
theorem objGet_map_replace (m : Headers) (k1 v k : List Char) :
    objGet (m.map (fun p => if p.1 = k1 then (p.1, v) else p)) k =
      if k1 = k then (objGet m k).map (fun _ => v) else objGet m k := by
  induction m with
  | nil => by_cases h : k1 = k <;> simp [objGet, h]
  | cons p m ih =>
    unfold objGet at ih ⊢
    rw [List.map_cons, List.find?_cons, List.find?_cons]
    by_cases hp : p.1 = k1 <;> by_cases hpk : p.1 = k <;>
      by_cases hk : k1 = k <;>
      simp_all

/-- A true `any` on the key predicate means lookup succeeds. -/
theorem objGet_isSome_of_any (m : Headers) (k : List Char)
    (h : m.any (fun p => p.1 = k) = true) : (objGet m k).isSome = true := by
  unfold objGet
  rcases List.any_eq_true.mp h with ⟨x, hx, hpx⟩
  have h2 : (List.find? (fun p => decide (p.1 = k)) m).isSome = true :=
    List.find?_isSome.mpr ⟨x, hx, hpx⟩
  cases hf : List.find? (fun p => decide (p.1 = k)) m <;> simp_all

/-- JS object lookup after JS object assignment. -/
theorem objGet_objInsert (m : Headers) (k1 v k : List Char) :
    objGet (objInsert m k1 v) k = if k1 = k then some v else objGet m k := by
  unfold objInsert
  by_cases hany : m.any (fun p => p.1 = k1) = true
  · rw [if_pos hany, objGet_map_replace]
    by_cases hk : k1 = k
    · subst hk
      have := objGet_isSome_of_any m k1 hany
      rcases Option.isSome_iff_exists.mp this with ⟨w, hw⟩
      simp [hw]
    · simp [hk]
  · rw [if_neg hany]
    unfold objGet
    rw [List.find?_append]
    by_cases hk : k1 = k
    · subst hk
      have hnone : List.find? (fun p => decide (p.1 = k1)) m = none := by
        rw [List.find?_eq_none]
        intro x hx
        by_contra hc
        exact hany (List.any_eq_true.mpr ⟨x, hx, by simpa using hc⟩)
      simp [hnone]
    · cases hfind : List.find? (fun p => decide (p.1 = k)) m <;>
        simp [hfind, hk, Ne.symm hk]

/-- Lookup in a left fold of JS object assignments: the value of the last
entry with the looked-up key wins; with no such entry the accumulator
decides. -/
theorem objGet_foldl_objInsert (kvs : List (List Char × List Char))
    (acc : Headers) (k : List Char) :
    objGet (kvs.foldl (fun m kv => objInsert m kv.1 kv.2) acc) k =
      (match kvs.reverse.find? (fun kv => kv.1 = k) with
       | some kv => some kv.2
       | none => objGet acc k) := by
  induction kvs generalizing acc with
  | nil => simp
  | cons kv kvs ih =>
    rw [List.foldl_cons, ih, List.reverse_cons, List.find?_append]
    cases hf : kvs.reverse.find? (fun p => decide (p.1 = k)) with
    | some w => simp [hf]
    | none =>
      simp only [Option.none_or, List.find?_cons]
      by_cases hk : kv.1 = k
      · simp [hk, objGet_objInsert]
      · simp [hk, objGet_objInsert]

/-- On a header block without blank lines the converter's scanning loop
is the last-wins fold of the per-line entries. -/
theorem headerLoop_eq_foldl (pc : Bool) (lines : List (List Char)) (i : Nat)
    (acc : Headers) (hnb : ∀ l ∈ lines, l ≠ []) :
    (headerLoop pc lines i acc).1 =
      (lines.filterMap (lineKV pc)).foldl (fun m kv => objInsert m kv.1 kv.2) acc := by
  induction lines generalizing i acc with
  | nil => rfl
  | cons l rest ih =>
    have hl : l ≠ [] := hnb l (List.mem_cons_self l rest)
    have hrest : ∀ x ∈ rest, x ≠ [] := fun x hx => hnb x (List.mem_cons_of_mem l hx)
    unfold headerLoop
    rw [if_neg hl, List.filterMap_cons]
    unfold lineKV
    cases hbc : breakColon l with
    | none => exact ih (i + 1) acc hrest
    | some p =>
      by_cases hk : p.1 = []
      · simp only [hk, if_true]
        exact ih (i + 1) acc hrest
      · simp only [hk, if_neg hk, List.foldl_cons]
        exact ih (i + 1) _ hrest

/-- C3 (amended): on every header block (the lines between the start line
and the blank separator, hence without empty lines) the parsing loop
produces exactly the last-wins mapping of the per-line entries where the
key is the **untrimmed** substring before the first colon (lowercased
unless case preservation is configured), the value is the substring after
the first colon trimmed of surrounding whitespace, and lines whose first
colon is missing or at position zero are dropped; the lookup of any key
returns the value of the last line mapping to it. -/
theorem C3_header_parsing (pc : Bool) (lines : List (List Char)) (k : List Char)
    (hnb : ∀ l ∈ lines, l ≠ []) :
    (headerLoop pc lines 1 []).1 = specHeaderMapAmended pc lines ∧
    objGet (specHeaderMapAmended pc lines) k =
      ((lines.filterMap (lineKV pc)).reverse.find?
        (fun kv => kv.1 = k)).map (fun kv => kv.2) := by
  constructor
  · exact headerLoop_eq_foldl pc lines 1 [] hnb
  · unfold specHeaderMapAmended
    rw [objGet_foldl_objInsert]
    cases hf : (lines.filterMap (lineKV pc)).reverse.find? (fun kv => kv.1 = k) <;>
      simp [hf, objGet]

/-- Counterexample to C3 as stated: the claim's mapping trims the header
key, but the code does not — on the block `Host : x` the code produces
the key `host ` (trailing space kept) while the claim prescribes `host`. -/
theorem C3_key_not_trimmed :
    (headerLoop false [toL "Host : x"] 1 []).1 ≠
      specHeaderMapClaim false [toL "Host : x"] := by
  decide

/-- Witness for C3 on a concrete block with a duplicate key. -/
theorem C3_header_parsing_witness :
    (headerLoop false [toL "A: 1", toL "a: 2", toL "B: x"] 1 []).1 =
      specHeaderMapAmended false [toL "A: 1", toL "a: 2", toL "B: x"] ∧
    objGet (specHeaderMapAmended false [toL "A: 1", toL "a: 2", toL "B: x"]) (toL "a") =
      (([toL "A: 1", toL "a: 2", toL "B: x"].filterMap (lineKV false)).reverse.find?
        (fun kv => kv.1 = toL "a")).map (fun kv => kv.2) :=
  C3_header_parsing false [toL "A: 1", toL "a: 2", toL "B: x"] (toL "a") (by decide)

/-- The request header-emission loop equals the plain emission loop on
the entries kept by `keepReqHeader`. -/
theorem emitReqHeaders_eq_filtered (pc isFD dT : Bool) (hs : HeadersIn) :
    emitReqHeaders pc isFD dT hs =
      emitRespHeaders pc (hs.filter (keepReqHeader isFD dT)) := by
  induction hs with
  | nil => rfl
  | cons kv rest ih =>
    obtain ⟨k, v⟩ := kv
    cases v with
    | vnull => simpa [emitReqHeaders, keepReqHeader, List.filter_cons] using ih
    | vundef => simpa [emitReqHeaders, keepReqHeader, List.filter_cons] using ih
    | vstr s =>
      by_cases h1 : (isFD && (toLowerL k = toL "content-type" ||
          toLowerL k = toL "content-length")) = true
      · simp only [emitReqHeaders, h1, if_true, List.filter_cons, keepReqHeader,
          Bool.true_and, h1, Bool.not_true, Bool.and_false, Bool.false_and,
          Bool.and_true]
        simpa [h1] using ih
      · by_cases h2 : (!dT && decide (toLowerL k = toL "content-type")) = true
        · simp only [emitReqHeaders]
          rw [if_neg (by simpa using h1)]
          rw [if_pos (by simpa using h2)]
          rw [ih, List.filter_cons]
          have : keepReqHeader isFD dT (k, .vstr s) = false := by
            simp [keepReqHeader, h2]
          rw [this]
          simp
        · have h1f : (isFD && (toLowerL k = toL "content-type" ||
              toLowerL k = toL "content-length")) = false := by
            simpa using h1
          have h2f : (!dT && decide (toLowerL k = toL "content-type")) = false := by
            simpa using h2
          simp only [emitReqHeaders]
          rw [if_neg (by simp [h1f]), if_neg (by simp [h2f])]
          rw [ih, List.filter_cons]
          have hk : keepReqHeader isFD dT (k, .vstr s) = true := by
            simp [keepReqHeader, h1f, h2f]
          rw [hk]
          simp [emitRespHeaders, hvalText]

/-- Counterexample to C6 as stated: with a caller-supplied
`content-length: 10` and the body `hello`, request encode emits **both**
the caller's line and a computed `content-length: 5` line — the computed
header is appended unconditionally, duplicating the caller's. -/
theorem C6_duplicate_content_length :
    containsSeq (toL "content-length: 10\r\n")
      (axiosRequestToHttpBytes defOpts ⟨some (toL "POST"), some (toL "/x"),
        [(toL "content-length", .vstr (toL "10"))], .str (toL "hello")⟩) = true ∧
    containsSeq (toL "content-length: 5\r\n")
      (axiosRequestToHttpBytes defOpts ⟨some (toL "POST"), some (toL "/x"),
        [(toL "content-length", .vstr (toL "10"))], .str (toL "hello")⟩) = true :=
  ⟨rfl, rfl⟩

/-- C6 (amended): for every request with a truthy non-multipart body,
request encode first emits every caller-supplied string-valued header
unchanged (including any `content-length`) and then **always** appends a
computed `content-length` header carrying the serialized body's byte
length — also when the caller already supplied one, duplicating it. -/
theorem C6_content_length_always_appended (opts : ConverterOptions)
    (m u : Option (List Char)) (hs : HeadersIn) (data : AxiosData)
    (hform : data.isForm = false) (htr : data.truthy = true) :
    axiosRequestToHttpBytes opts ⟨m, u, hs, data⟩ =
      toUpperL (jsDefault m (toL "GET")) ++ [' '] ++ jsDefault u [] ++
        toL " HTTP/1.1\r\n" ++
      emitRespHeaders opts.preserveHeaderCase (hs.filter (keepReqHeader false true)) ++
      (match data with
       | .str _ => []
       | .bytes _ => []
       | _ =>
         if hs.any (fun kv => toLowerL kv.1 = toL "content-type") then []
         else toL "content-type: application/json\r\n") ++
      (toL "content-length: " ++ natToChars (utf8Len (reqBodyBytes data)) ++
        toL "\r\n") ++
      toL "\r\n" ++ reqBodyBytes data := by
  cases data with
  | form fd => simp [AxiosData.isForm] at hform
  | undef => simp [AxiosData.truthy] at htr
  | null => simp [AxiosData.truthy] at htr
  | jsbool b =>
    cases b with
    | false => simp [AxiosData.truthy] at htr
    | true =>
      simp [axiosRequestToHttpBytes, AxiosData.truthy, AxiosData.isForm,
        reqBodyBytes, emitReqHeaders_eq_filtered, List.append_assoc]
  | num n =>
    have hn : ¬ n = 0 := by simpa [AxiosData.truthy] using htr
    simp only [axiosRequestToHttpBytes, AxiosData.truthy, AxiosData.isForm,
      reqBodyBytes, emitReqHeaders_eq_filtered]
    simp [hn, List.append_assoc]
  | str s =>
    have hts : (!s.isEmpty) = true := htr
    simp only [axiosRequestToHttpBytes, AxiosData.truthy, AxiosData.isForm, hts,
      if_true, reqBodyBytes, emitReqHeaders_eq_filtered]
    simp [List.append_assoc]
  | bytes b =>
    simp [axiosRequestToHttpBytes, AxiosData.truthy, AxiosData.isForm,
      reqBodyBytes, emitReqHeaders_eq_filtered, List.append_assoc]
  | obj j =>
    simp [axiosRequestToHttpBytes, AxiosData.truthy, AxiosData.isForm,
      reqBodyBytes, emitReqHeaders_eq_filtered, List.append_assoc]

/-- Witness for C6: the counterexample's request, with the amended shape
evaluated. -/
theorem C6_content_length_always_appended_witness :
    axiosRequestToHttpBytes defOpts ⟨some (toL "POST"), some (toL "/x"),
      [(toL "content-length", .vstr (toL "10"))], .str (toL "hello")⟩ =
      toUpperL (jsDefault (some (toL "POST")) (toL "GET")) ++ [' '] ++
        jsDefault (some (toL "/x")) [] ++ toL " HTTP/1.1\r\n" ++
      emitRespHeaders false
        ([(toL "content-length", HVal.vstr (toL "10"))].filter (keepReqHeader false true)) ++
      (match AxiosData.str (toL "hello") with
       | .str _ => []
       | .bytes _ => []
       | _ =>
         if [(toL "content-length", HVal.vstr (toL "10"))].any
              (fun kv => toLowerL kv.1 = toL "content-type") then []
         else toL "content-type: application/json\r\n") ++
      (toL "content-length: " ++
        natToChars (utf8Len (reqBodyBytes (.str (toL "hello")))) ++ toL "\r\n") ++
      toL "\r\n" ++ reqBodyBytes (.str (toL "hello")) :=
  C6_content_length_always_appended defOpts (some (toL "POST")) (some (toL "/x"))
    [(toL "content-length", .vstr (toL "10"))] (.str (toL "hello")) (by rfl) (by rfl)

/-- Counterexample to C7 as stated: `false` is a non-string,
non-byte-buffer data value, yet response encode emits **no** body for it
(the JS truthiness guard skips serialization entirely): the output is
the bare status line and separator, and the JSON text `false` appears
nowhere in it. -/
theorem C7_falsy_data_not_serialized :
    axiosResponseToHttpBytes defOpts ⟨200, toL "OK", [], .jsbool false⟩ =
      toL "HTTP/1.1 200 OK\r\n\r\n" ∧
    containsSeq (toL "false")
      (axiosResponseToHttpBytes defOpts ⟨200, toL "OK", [], .jsbool false⟩) = false :=
  ⟨rfl, rfl⟩

/-- C7 (amended): for every response whose data is **truthy** and neither
a string nor a byte buffer — including a form-data value, which has no
special case on the response encode path and is serialized like any other
object (to the empty JSON object) — response encode emits the
`JSON.stringify` text as the body, adds `Content-Type: application/json`
exactly when the caller's header object has no truthy value under the
exact lowercase key `content-type`, and appends a computed
`Content-Length`. -/
theorem C7_response_json_fallback (opts : ConverterOptions) (st : Nat)
    (sx : List Char) (hs : HeadersIn) (data : AxiosData)
    (htr : data.truthy = true) (hstr : data.isStr = false)
    (hbytes : data.isBytes = false) :
    axiosResponseToHttpBytes opts ⟨st, sx, hs, data⟩ =
      toL "HTTP/1.1 " ++ natToChars st ++ [' '] ++ sx ++ toL "\r\n" ++
      emitRespHeaders opts.preserveHeaderCase hs ++
      (if (match objGetIn hs (toL "content-type") with
           | some v => hvalTruthy v
           | none => false) then []
       else toL "Content-Type: application/json\r\n") ++
      (toL "Content-Length: " ++ natToChars (utf8Len (jsonStringifyData data)) ++
        toL "\r\n") ++
      toL "\r\n" ++ jsonStringifyData data := by
  cases data with
  | undef => simp [AxiosData.truthy] at htr
  | null => simp [AxiosData.truthy] at htr
  | str s => simp [AxiosData.isStr] at hstr
  | bytes b => simp [AxiosData.isBytes] at hbytes
  | jsbool b =>
    cases b with
    | false => simp [AxiosData.truthy] at htr
    | true => simp [axiosResponseToHttpBytes, AxiosData.truthy, List.append_assoc]
  | num n =>
    have hn : ¬ n = 0 := by simpa [AxiosData.truthy] using htr
    simp [axiosResponseToHttpBytes, AxiosData.truthy, hn, List.append_assoc]
  | obj j =>
    simp [axiosResponseToHttpBytes, AxiosData.truthy, List.append_assoc]
  | form fd =>
    simp [axiosResponseToHttpBytes, AxiosData.truthy, List.append_assoc]

/-- Witness for C7 with a form-data response body: it is serialized as
the empty JSON object, not multipart-encoded. -/
theorem C7_response_json_fallback_witness :
    axiosResponseToHttpBytes defOpts
      ⟨200, toL "OK", [], .form ⟨[(toL "a", .field (toL "b"))]⟩⟩ =
      toL "HTTP/1.1 " ++ natToChars 200 ++ [' '] ++ toL "OK" ++ toL "\r\n" ++
      emitRespHeaders false [] ++
      (if (match objGetIn [] (toL "content-type") with
           | some v => hvalTruthy v
           | none => false) then []
       else toL "Content-Type: application/json\r\n") ++
      (toL "Content-Length: " ++
        natToChars (utf8Len (jsonStringifyData
          (.form ⟨[(toL "a", .field (toL "b"))]⟩))) ++ toL "\r\n") ++
      toL "\r\n" ++ jsonStringifyData (.form ⟨[(toL "a", .field (toL "b"))]⟩) :=
  C7_response_json_fallback defOpts 200 (toL "OK") []
    (.form ⟨[(toL "a", .field (toL "b"))]⟩) (by rfl) (by rfl) (by rfl)

/-- C9: the request header-emission loop omits exactly the entries whose
value is `undefined`/`null`, the `content-type`/`content-length` entries
of a `FormData` request, and the `content-type` entry of a bodiless
request; and for a `FormData` body the encoder then appends the computed
multipart `content-type` and `content-length` headers in their place. -/
theorem C9_header_omission (opts : ConverterOptions) (m u : Option (List Char))
    (hs : HeadersIn) (fd : FormDataM) (isFD dT : Bool) :
    emitReqHeaders opts.preserveHeaderCase isFD dT hs =
      emitRespHeaders opts.preserveHeaderCase (hs.filter (keepReqHeader isFD dT)) ∧
    axiosRequestToHttpBytes opts ⟨m, u, hs, .form fd⟩ =
      toUpperL (jsDefault m (toL "GET")) ++ [' '] ++ jsDefault u [] ++
        toL " HTTP/1.1\r\n" ++
      emitRespHeaders opts.preserveHeaderCase (hs.filter (keepReqHeader true true)) ++
      (toL "content-type: multipart/form-data; boundary=" ++
        opts.multipartBoundary ++ toL "\r\n") ++
      (toL "content-length: " ++
        natToChars (utf8Len (buildMultipartBody fd opts.multipartBoundary)) ++
        toL "\r\n") ++
      toL "\r\n" ++ buildMultipartBody fd opts.multipartBoundary := by
  constructor
  · exact emitReqHeaders_eq_filtered opts.preserveHeaderCase isFD dT hs
  · simp [axiosRequestToHttpBytes, AxiosData.isForm, AxiosData.truthy,
      emitReqHeaders_eq_filtered, List.append_assoc]
